import Mathlib

/-!
Verification development for the SysLens host-telemetry pipeline.

This file gives a shallow embedding, in Lean, of the parts of the code base
that the specification's claims are about:

* the envelope codec (`CompressData`, `EncryptionService.Encrypt` /
  `EncryptionService.Decrypt`, and the reporter / aggregator pipelines
  `processData` and `processIncomingData`);
* Base64 standard encoding, implemented concretely and proved to round-trip;
* the identity flow of the control plane (`HandleRegisterNodeGin` minting a
  node with a bcrypt hash and an escrowed encrypted token, and
  `HandleGetNodeTokenGin` recovering the cleartext token);
* the node catalog repository (`GetByID`, `ValidateNodeToken`, `Update`,
  group `Delete`);
* the aggregator auth middleware and the sampler's network-rate computation.

Byte strings are modelled as lists of naturals (each < 256 where it
matters).  External cryptographic primitives that live outside this
repository (AES-GCM aeadSeal/open, gzip, bcrypt) are parameters bundled in
structures carrying exactly their documented round-trip laws; everything
the repository itself computes (key normalization, Base64 framing, the
order of the pipeline stages, the branching of the handlers) is modelled
concretely from the source.
-/

namespace Syslens

/-- Byte strings: lists of byte values. -/
abbrev Bytes := List Nat

/-- Every element of the list is a byte value (< 256). -/
def allBytes (l : Bytes) : Prop := ∀ b ∈ l, b < 256

instance : DecidablePred allBytes := fun l => by
  unfold allBytes
  infer_instance

/-! ### Base64 standard encoding (Go `encoding/base64`, `StdEncoding`) -/

/-- The standard Base64 alphabet as character codes:
A-Z (65-90), a-z (97-122), 0-9 (48-57), + (43), / (47). -/
def b64alphabet : List Nat :=
  [65, 66, 67, 68, 69, 70, 71, 72, 73, 74, 75, 76, 77, 78, 79, 80, 81, 82,
   83, 84, 85, 86, 87, 88, 89, 90,
   97, 98, 99, 100, 101, 102, 103, 104, 105, 106, 107, 108, 109, 110, 111,
   112, 113, 114, 115, 116, 117, 118, 119, 120, 121, 122,
   48, 49, 50, 51, 52, 53, 54, 55, 56, 57, 43, 47]

/-- Character code of the sextet `i` (0 ≤ i < 64). -/
def encSextet (i : Nat) : Nat := b64alphabet.getD i 0

/-- Inverse lookup: the sextet whose character code is `c`, if any. -/
def decSextet (c : Nat) : Option Nat :=
  (List.range 64).find? (fun i => encSextet i == c)

theorem decSextet_encSextet {s : Nat} (h : s < 64) :
    decSextet (encSextet s) = some s := by
  have key : ∀ i : Fin 64, decSextet (encSextet i.val) = some i.val := by decide
  exact key ⟨s, h⟩

theorem encSextet_ne_pad {s : Nat} (h : s < 64) : encSextet s ≠ 61 := by
  have key : ∀ i : Fin 64, encSextet i.val ≠ 61 := by decide
  exact key ⟨s, h⟩

theorem encSextet_lt (i : Nat) : encSextet i < 256 := by
  by_cases h : i < 64
  · have key : ∀ i : Fin 64, encSextet i.val < 256 := by decide
    exact key ⟨i, h⟩
  · have hlen : b64alphabet.length = 64 := by rfl
    unfold encSextet
    rw [List.getD_eq_default]
    · omega
    · omega

/-- Base64-encode a byte string, emitting the padded standard alphabet
encoding (groups of 3 bytes become 4 characters; a trailing group of 1 or 2
bytes is padded with `=`, character code 61). -/
def base64Encode : Bytes → List Nat
  | b1 :: b2 :: b3 :: rest =>
      encSextet (b1 / 4) ::
      encSextet (b1 % 4 * 16 + b2 / 16) ::
      encSextet (b2 % 16 * 4 + b3 / 64) ::
      encSextet (b3 % 64) ::
      base64Encode rest
  | [b1, b2] =>
      [encSextet (b1 / 4), encSextet (b1 % 4 * 16 + b2 / 16),
       encSextet (b2 % 16 * 4), 61]
  | [b1] =>
      [encSextet (b1 / 4), encSextet (b1 % 4 * 16), 61, 61]
  | [] => []

/-- Base64-decode a character string back to bytes; `none` on any character
outside the alphabet, misplaced padding, or a length that is not a multiple
of four. -/
def base64Decode : List Nat → Option Bytes
  | [] => some []
  | c1 :: c2 :: c3 :: c4 :: rest =>
    match decSextet c1, decSextet c2 with
    | some s1, some s2 =>
      if c3 = 61 then
        if c4 = 61 ∧ rest = [] then some [s1 * 4 + s2 / 16] else none
      else
        match decSextet c3 with
        | some s3 =>
          if c4 = 61 then
            if rest = [] then
              some [s1 * 4 + s2 / 16, s2 % 16 * 16 + s3 / 4]
            else none
          else
            match decSextet c4, base64Decode rest with
            | some s4, some ds =>
              some ((s1 * 4 + s2 / 16) :: (s2 % 16 * 16 + s3 / 4) ::
                    (s3 % 4 * 64 + s4) :: ds)
            | _, _ => none
        | none => none
    | _, _ => none
  | _ => none

theorem base64_roundtrip :
    ∀ data : Bytes, allBytes data →
      base64Decode (base64Encode data) = some data
  | [], _ => by simp [base64Encode, base64Decode]
  | [b1], h => by
      have hb1 : b1 < 256 := h b1 (by simp)
      have h1 : b1 / 4 < 64 := by omega
      have h2 : b1 % 4 * 16 < 64 := by omega
      simp [base64Encode, base64Decode, decSextet_encSextet h1,
        decSextet_encSextet h2]
      omega
  | [b1, b2], h => by
      have hb1 : b1 < 256 := h b1 (by simp)
      have hb2 : b2 < 256 := h b2 (by simp)
      have h1 : b1 / 4 < 64 := by omega
      have h2 : b1 % 4 * 16 + b2 / 16 < 64 := by omega
      have h3 : b2 % 16 * 4 < 64 := by omega
      simp [base64Encode, base64Decode, decSextet_encSextet h1,
        decSextet_encSextet h2, decSextet_encSextet h3,
        encSextet_ne_pad h3]
      omega
  | b1 :: b2 :: b3 :: rest, h => by
      have hb1 : b1 < 256 := h b1 (by simp)
      have hb2 : b2 < 256 := h b2 (by simp)
      have hb3 : b3 < 256 := h b3 (by simp)
      have hrest : allBytes rest := by
        intro b hb
        exact h b (by simp [hb])
      have ih := base64_roundtrip rest hrest
      have h1 : b1 / 4 < 64 := by omega
      have h2 : b1 % 4 * 16 + b2 / 16 < 64 := by omega
      have h3 : b2 % 16 * 4 + b3 / 64 < 64 := by omega
      have h4 : b3 % 64 < 64 := by omega
      simp [base64Encode, base64Decode, decSextet_encSextet h1,
        decSextet_encSextet h2, decSextet_encSextet h3,
        decSextet_encSextet h4, encSextet_ne_pad h3,
        encSextet_ne_pad h4, ih]
      omega

theorem base64Encode_allBytes :
    ∀ data : Bytes, allBytes (base64Encode data)
  | [] => by simp [base64Encode, allBytes]
  | [b1] => by
      intro b hb
      simp only [base64Encode, List.mem_cons, List.not_mem_nil,
        or_false] at hb
      rcases hb with h | h | h | h <;> subst h <;>
        first
        | exact encSextet_lt _
        | omega
  | [b1, b2] => by
      intro b hb
      simp only [base64Encode, List.mem_cons, List.not_mem_nil,
        or_false] at hb
      rcases hb with h | h | h | h <;> subst h <;>
        first
        | exact encSextet_lt _
        | omega
  | b1 :: b2 :: b3 :: rest => by
      intro b hb
      simp only [base64Encode, List.mem_cons] at hb
      rcases hb with h | h | h | h | h
      · subst h; exact encSextet_lt _
      · subst h; exact encSextet_lt _
      · subst h; exact encSextet_lt _
      · subst h; exact encSextet_lt _
      · exact base64Encode_allBytes rest b h

theorem base64Encode_ne_nil {data : Bytes} (h : data ≠ []) :
    base64Encode data ≠ [] := by
  match data with
  | [] => exact absurd rfl h
  | [b1] => simp [base64Encode]
  | [b1, b2] => simp [base64Encode]
  | b1 :: b2 :: b3 :: rest => simp [base64Encode]

/-! ### External cryptographic primitives

AES-GCM, gzip and bcrypt live in the Go standard library and
`golang.org/x/crypto`, outside this repository.  They enter the embedding
as parameters bundled with exactly their documented laws (losslessness /
verification of what was produced), so every theorem below is about the
repository's own composition of them. -/

/-- An AEAD cipher in the style of Go's `cipher.AEAD` (AES-256-GCM in the
source).  `aeadSeal key nonce plain` is ciphertext plus tag; `aeadOpen` inverts
it for the same key and nonce.  GCM's nonce size is positive (12). -/
structure GCM where
  nonceSize : Nat
  noncePos : 0 < nonceSize
  aeadSeal : Bytes → Bytes → Bytes → Bytes
  aeadOpen : Bytes → Bytes → Bytes → Option Bytes
  aeadSeal_open : ∀ key nonce plain,
    aeadOpen key nonce (aeadSeal key nonce plain) = some plain
  aeadSeal_bytes : ∀ key nonce plain, allBytes plain →
    allBytes (aeadSeal key nonce plain)

/-- gzip as an abstract compressor: `gz level data` compresses at a valid
level, `gunzip` inverts it (gzip streams are self-describing, so no level
is needed on the way back). -/
structure Gzip where
  gz : Int → Bytes → Bytes
  gunzip : Bytes → Option Bytes
  gz_gunzip : ∀ level data, 1 ≤ level → level ≤ 9 →
    gunzip (gz level data) = some data
  gz_bytes : ∀ level data, allBytes data → allBytes (gz level data)

/-- bcrypt (`golang.org/x/crypto/bcrypt`): `hash salt password` models
`GenerateFromPassword` with its random salt made explicit, `verify` models
`CompareHashAndPassword` succeeding; verification accepts exactly what was
hashed. -/
structure Bcrypt where
  hash : Bytes → Bytes → Bytes
  verify : Bytes → Bytes → Bool
  verify_hash : ∀ salt password, verify password (hash salt password) = true

/-! ### The envelope codec (internal/common/utils/crypto.go) -/

/-- Key normalization shared by `EncryptionService.Encrypt` and
`Decrypt`: a key shorter than 32 bytes is right-padded with zero bytes, a
longer one truncated to 32. -/
def normalizeKey (key : Bytes) : Bytes :=
  if key.length < 32 then key ++ List.replicate (32 - key.length) 0
  else key.take 32

/-- `EncryptionService.Encrypt` (crypto.go): with an empty key the data is
returned unchanged; otherwise the data is sealed under the normalized key
with a fresh random nonce (here an explicit argument), the nonce is
prepended (`aesGCM.Seal(nonce, nonce, data, nil)`), and the result is
Base64-encoded.  The source's error paths (cipher construction for the
always-32-byte normalized key, randomness) cannot fire, so the function is
total. -/
def EncryptionService.Encrypt (g : GCM) (data : Bytes) (key : Bytes)
    (nonce : Bytes) : Bytes :=
  if key.length = 0 then data
  else base64Encode (nonce ++ g.aeadSeal (normalizeKey key) nonce data)

/-- `EncryptionService.Decrypt` (crypto.go): with an empty key the data is
returned unchanged (assumed unencrypted); otherwise Base64-decode, reject
inputs shorter than the nonce, split off the nonce and open the
ciphertext.  `none` covers every error return of the source. -/
def EncryptionService.Decrypt (g : GCM) (data : Bytes) (key : Bytes) :
    Option Bytes :=
  if key.length = 0 then some data
  else
    (base64Decode data).bind fun decoded =>
      if decoded.length < g.nonceSize then none
      else g.aeadOpen (normalizeKey key) (decoded.take g.nonceSize)
             (decoded.drop g.nonceSize)

/-- `CompressData` (crypto.go): a level outside [1,9] is replaced by the
default 6, then the data is gzip-compressed at that level
(`gzip.NewWriterLevel` cannot fail for a level in [1,9]). -/
def CompressData (gzip : Gzip) (data : Bytes) (level : Int) : Bytes :=
  let lvl := if level < 1 ∨ level > 9 then 6 else level
  gzip.gz lvl data

/-- `DecompressData` (crypto.go): gzip decompression. -/
def DecompressData (gzip : Gzip) (data : Bytes) : Option Bytes :=
  gzip.gunzip data

theorem Encrypt_Decrypt (g : GCM) (data key nonce : Bytes)
    (hn : nonce.length = g.nonceSize) (hnb : allBytes nonce)
    (hd : allBytes data) :
    EncryptionService.Decrypt g (EncryptionService.Encrypt g data key nonce)
      key = some data := by
  unfold EncryptionService.Encrypt EncryptionService.Decrypt
  by_cases hk : key.length = 0
  · simp [hk]
  · rw [if_neg hk, if_neg hk]
    have hcb : allBytes (nonce ++ g.aeadSeal (normalizeKey key) nonce data) := by
      intro b hb
      rcases List.mem_append.mp hb with h | h
      · exact hnb b h
      · exact g.aeadSeal_bytes _ _ _ hd b h
    rw [base64_roundtrip _ hcb, Option.some_bind]
    have hlen : (nonce ++ g.aeadSeal (normalizeKey key) nonce data).length =
        nonce.length + (g.aeadSeal (normalizeKey key) nonce data).length :=
      List.length_append _ _
    rw [if_neg (by omega)]
    rw [← hn, List.take_left, List.drop_left]
    exact g.aeadSeal_open _ _ _

theorem CompressData_gunzip (gzip : Gzip) (data : Bytes) (level : Int) :
    gzip.gunzip (CompressData gzip data level) = some data := by
  unfold CompressData
  by_cases h : level < 1 ∨ level > 9
  · rw [if_pos h]
    exact gzip.gz_gunzip 6 data (by norm_num) (by norm_num)
  · rw [if_neg h]
    push_neg at h
    exact gzip.gz_gunzip level data h.1 h.2

theorem CompressData_bytes (gzip : Gzip) (data : Bytes) (level : Int)
    (hd : allBytes data) : allBytes (CompressData gzip data level) := by
  unfold CompressData
  exact gzip.gz_bytes _ _ hd

/-! ### Reporter egress and aggregator ingress pipelines -/

/-- The security configuration shared by agent and aggregator
(`config.SecurityConfig`): encryption and compression switches, the
encryption key and the gzip level.  The `algorithm` strings of the source
only select the single supported algorithm each and carry no behavior. -/
structure SecurityConfig where
  encryptionEnabled : Bool
  encryptionKey : Bytes
  compressionEnabled : Bool
  compressionLevel : Int

/-- `HTTPReporter.processData` (reporter.go): step 1 compresses when
compression is enabled, step 2 encrypts when encryption is enabled.  The
source additionally checks `encryptionSvc != nil`, which holds exactly
when encryption is enabled (`NewHTTPReporter`, `WithSecurityConfig`). -/
def processData (gzip : Gzip) (g : GCM) (cfg : SecurityConfig)
    (nonce : Bytes) (data : Bytes) : Bytes :=
  let d1 := if cfg.compressionEnabled then
    CompressData gzip data cfg.compressionLevel else data
  if cfg.encryptionEnabled then
    EncryptionService.Encrypt g d1 cfg.encryptionKey nonce
  else d1

/-- The `X-Encrypted: true` flag the reporter attaches (reporter.go):
set iff encryption is enabled. -/
def reportIsEncrypted (cfg : SecurityConfig) : Bool := cfg.encryptionEnabled

/-- The `X-Compressed: gzip` flag the reporter attaches (reporter.go):
set iff compression is enabled. -/
def reportIsCompressed (cfg : SecurityConfig) : Bool := cfg.compressionEnabled

/-- `Server.processIncomingData` (aggregator server.go): step 1, when the
X-Encrypted header is set, fail unless the aggregator has encryption
configured (the source's `encryptionSvc == nil` check coincides with the
enabled flag, see the constructor), else decrypt; step 2, when the
X-Compressed header is set, decompress — attempted even when compression
is not locally enabled (the source only logs a warning there). -/
def processIncomingData (gzip : Gzip) (g : GCM) (cfg : SecurityConfig)
    (data : Bytes) (isEncrypted isCompressed : Bool) : Option Bytes :=
  let step1 : Option Bytes :=
    if isEncrypted then
      if cfg.encryptionEnabled then
        EncryptionService.Decrypt g data cfg.encryptionKey
      else none
    else some data
  match step1 with
  | none => none
  | some d1 => if isCompressed then DecompressData gzip d1 else some d1

/-! ### Concrete primitive instances

These discharge the structure parameters in witnesses: a trivial AEAD, a
marker-based compressor and a concatenation-based hasher, each satisfying
the stated laws. -/

/-- A concrete AEAD instance for witnesses. -/
def gcmWitness : GCM where
  nonceSize := 1
  noncePos := Nat.one_pos
  aeadSeal := fun _ _ plain => plain
  aeadOpen := fun _ _ c => some c
  aeadSeal_open := fun _ _ _ => rfl
  aeadSeal_bytes := fun _ _ _ h => h

/-- A concrete compressor instance for witnesses: prepends the gzip magic
bytes. -/
def gzWitness : Gzip where
  gz := fun _ data => 31 :: 139 :: data
  gunzip := fun data =>
    match data with
    | 31 :: 139 :: rest => some rest
    | _ => none
  gz_gunzip := fun _ _ _ _ => rfl
  gz_bytes := by
    intro level data hd b hb
    rcases List.mem_cons.mp hb with h | hb2
    · omega
    · rcases List.mem_cons.mp hb2 with h | h
      · omega
      · exact hd b h

/-- A concrete hasher instance for witnesses. -/
def bcryptWitness : Bcrypt where
  hash := fun salt password => salt ++ password
  verify := fun password h => h.drop (h.length - password.length) == password
  verify_hash := by
    intro salt password
    simp [List.length_append]

/-- A concrete security configuration with both compression and encryption
enabled. -/
def secCfgWitness : SecurityConfig where
  encryptionEnabled := true
  encryptionKey := [107]
  compressionEnabled := true
  compressionLevel := 6

/-- C1: for every serialized JSON payload and every subset of the
{compress, encrypt} flags chosen by the security configuration, egress
processing by `HTTPReporter.processData` followed by ingress processing by
`Server.processIncomingData` under the same flags and key returns exactly
the payload. -/
theorem claim_C1_envelope_roundtrip (gzip : Gzip) (g : GCM)
    (cfg : SecurityConfig) (nonce data : Bytes)
    (hn : nonce.length = g.nonceSize) (hnb : allBytes nonce)
    (hd : allBytes data) :
    processIncomingData gzip g cfg (processData gzip g cfg nonce data)
      (reportIsEncrypted cfg) (reportIsCompressed cfg) = some data := by
  unfold processData processIncomingData reportIsEncrypted reportIsCompressed
  cases hE : cfg.encryptionEnabled <;> cases hC : cfg.compressionEnabled
  · simp
  · simp [DecompressData, CompressData_gunzip]
  · simp [Encrypt_Decrypt g data cfg.encryptionKey nonce hn hnb hd]
  · simp [Encrypt_Decrypt g _ cfg.encryptionKey nonce hn hnb
      (CompressData_bytes gzip data cfg.compressionLevel hd),
      DecompressData, CompressData_gunzip]

/-- Witness for C1: both flags set, single-byte key, concrete payload. -/
theorem claim_C1_envelope_roundtrip_witness :
    ([0] : Bytes).length = gcmWitness.nonceSize ∧ allBytes [0] ∧
    allBytes [104, 105] ∧
    processIncomingData gzWitness gcmWitness secCfgWitness
      (processData gzWitness gcmWitness secCfgWitness [0] [104, 105])
      (reportIsEncrypted secCfgWitness) (reportIsCompressed secCfgWitness) =
      some [104, 105] :=
  ⟨rfl, by decide, by decide,
   claim_C1_envelope_roundtrip gzWitness gcmWitness secCfgWitness [0]
     [104, 105] rfl (by decide) (by decide)⟩

/-- C8: `CompressData` with a level outside [1,9] behaves exactly as with
level 6; a level inside [1,9] is used as requested. -/
theorem claim_C8_level_normalization (gzip : Gzip) (data : Bytes)
    (level : Int) :
    ((level < 1 ∨ level > 9) →
      CompressData gzip data level = CompressData gzip data 6) ∧
    (1 ≤ level → level ≤ 9 →
      CompressData gzip data level = gzip.gz level data) := by
  constructor
  · intro h
    unfold CompressData
    rw [if_pos h, if_neg (by decide)]
  · intro h1 h2
    unfold CompressData
    rw [if_neg (by simp only [not_or, not_lt]; exact ⟨h1, h2⟩)]

/-- Witness for C8: level 10 is coerced to 6, level 3 is used as is. -/
theorem claim_C8_level_normalization_witness :
    ((10 : Int) < 1 ∨ (10 : Int) > 9) ∧
    (1 : Int) ≤ 3 ∧ (3 : Int) ≤ 9 ∧
    CompressData gzWitness [7] 10 = CompressData gzWitness [7] 6 ∧
    CompressData gzWitness [7] 3 = gzWitness.gz 3 [7] :=
  ⟨Or.inr (by decide), by decide, by decide,
   (claim_C8_level_normalization gzWitness [7] 10).1 (Or.inr (by decide)),
   (claim_C8_level_normalization gzWitness [7] 3).2 (by decide) (by decide)⟩

/-- C9: with an empty key, `EncryptionService.Encrypt` and
`EncryptionService.Decrypt` return their input unchanged and report no
error, so an empty configured key silently turns both into the identity
even when encryption is enabled. -/
theorem claim_C9_empty_key_identity (g : GCM) (data nonce : Bytes) :
    EncryptionService.Encrypt g data [] nonce = data ∧
    EncryptionService.Decrypt g data [] = some data :=
  ⟨rfl, rfl⟩

/-! ### Node catalog data model (internal/server/repository) -/

/-- `NodeType`: agent or fixed-service. -/
inductive NodeType where
  | agent
  | fixedService
deriving DecidableEq, Repr

/-- `NodeStatus`: pending, active or inactive. -/
inductive NodeStatus where
  | pending
  | active
  | inactive
deriving DecidableEq, Repr

/-- The `Node` entity of the repository (part_000): identity, the bcrypt
hash of the auth token, the escrowed Base64-framed encrypted token, labels
and configuration (structured stand-ins for the JSONB columns),
classification, weak references and timestamps.  `sql.NullString` /
`sql.NullTime` become `Option`; the database-maintained audit columns
`created_time` / `updated_time` are omitted. -/
structure Node where
  id : Bytes
  name : Bytes
  authTokenHash : Bytes
  encryptedAuthToken : Bytes
  labels : Option (List (Bytes × Bytes))
  configuration : Option (List (Bytes × Bytes))
  type : NodeType
  status : NodeStatus
  groupID : Option Bytes
  serviceID : Option Bytes
  description : Option Bytes
  registeredAt : Option Nat
  lastActiveAt : Option Nat
deriving DecidableEq, Repr

/-- Driver-level database errors.  The pure relational model never
produces `driver`; it stands for the connection failures a live database
could return, so a result of the form `.ok _` states "no error". -/
inductive DBError where
  | notFound
  | driver
deriving DecidableEq, Repr

/-- The row of the `nodes` table matching an id, if any (the semantics of
`WHERE id = $1` on the unique primary key: the first — and only —
matching row). -/
def findNodeRow (db : List Node) (id : Bytes) : Option Node :=
  db.find? (fun n => n.id == id)

/-- `PostgresNodeRepository.GetByID` (part_000): a missing row
(`sql.ErrNoRows`) is mapped to success with no node — `(nil, nil)`.  Row
scanning and JSON label parsing are identities on this structured
model. -/
def GetByID (db : List Node) (id : Bytes) : Except DBError (Option Node) :=
  match findNodeRow db id with
  | none => .ok none
  | some n => .ok (some n)

/-- `PostgresNodeRepository.ValidateNodeToken` (part_000): select the
stored hash by id; a missing row yields `(false, nil)`; otherwise the
verdict of `utils.ComparePasswordAndHash` (bcrypt verification), with no
error. -/
def ValidateNodeToken (bc : Bcrypt) (db : List Node) (id token : Bytes) :
    Except DBError Bool :=
  match findNodeRow db id with
  | none => .ok false
  | some n => .ok (bc.verify token n.authTokenHash)

/-- A concrete stored node used by witnesses. -/
def nodeWitness : Node where
  id := [1]
  name := [110]
  authTokenHash := bcryptWitness.hash [9] [5]
  encryptedAuthToken := []
  labels := none
  configuration := none
  type := .agent
  status := .pending
  groupID := some [3]
  serviceID := none
  description := none
  registeredAt := some 0
  lastActiveAt := some 0

/-- C4: for every stored node, `ValidateNodeToken(id, t)` returns true
iff bcrypt verification of `t` against the node's stored
`auth_token_hash` succeeds (and no error is reported). -/
theorem claim_C4_validate_token_iff_bcrypt (bc : Bcrypt) (db : List Node)
    (id token : Bytes) (n : Node) (h : findNodeRow db id = some n) :
    ValidateNodeToken bc db id token = .ok true ↔
      bc.verify token n.authTokenHash = true := by
  unfold ValidateNodeToken
  rw [h]
  simp

/-- Witness for C4: the stored witness node with its minted token. -/
theorem claim_C4_validate_token_iff_bcrypt_witness :
    findNodeRow [nodeWitness] [1] = some nodeWitness ∧
    (ValidateNodeToken bcryptWitness [nodeWitness] [1] [5] = .ok true ↔
      bcryptWitness.verify [5] nodeWitness.authTokenHash = true) :=
  ⟨rfl,
   claim_C4_validate_token_iff_bcrypt bcryptWitness [nodeWitness] [1] [5]
     nodeWitness rfl⟩

/-- C10: an id with no stored node yields `ValidateNodeToken = (false,
nil)` — an invalid token, not an error — and `GetByID = (nil, nil)` —
absence, not an error. -/
theorem claim_C10_missing_node_not_error (bc : Bcrypt) (db : List Node)
    (id token : Bytes) (h : ∀ n ∈ db, n.id ≠ id) :
    ValidateNodeToken bc db id token = .ok false ∧
    GetByID db id = .ok none := by
  have hf : findNodeRow db id = none := by
    unfold findNodeRow
    apply List.find?_eq_none.mpr
    intro n hn
    simpa using h n hn
  constructor
  · unfold ValidateNodeToken
    rw [hf]
  · unfold GetByID
    rw [hf]

/-- Witness for C10: an id absent from a one-node table. -/
theorem claim_C10_missing_node_not_error_witness :
    (∀ n ∈ [nodeWitness], n.id ≠ [2]) ∧
    ValidateNodeToken bcryptWitness [nodeWitness] [2] [5] = .ok false ∧
    GetByID [nodeWitness] [2] = .ok none :=
  ⟨by decide,
   claim_C10_missing_node_not_error bcryptWitness [nodeWitness] [2] [5]
     (by decide)⟩

/-! ### Node registration and token recovery (part_005, API handlers) -/

/-- `PostgresNodeRepository.Update` (part_000): rewrite every column of
the row whose id matches, from the in-memory node; `sql.ErrNoRows` — the
node does not exist — otherwise. -/
def Update (db : List Node) (node : Node) : Except DBError (List Node) :=
  match findNodeRow db node.id with
  | some _ => .ok (db.map fun m => if m.id == node.id then node else m)
  | none => .error .notFound

/-- The registration request body of `HandleRegisterNodeGin`: only `name`
is required; an empty byte string stands for an absent optional field, as
in the source's zero-valued strings. -/
structure NodeRegisterRequest where
  nodeID : Bytes
  name : Bytes
  labels : Option (List (Bytes × Bytes))
  type : Bytes
  groupID : Bytes
  serviceID : Bytes
  description : Bytes
  authToken : Bytes
deriving DecidableEq, Repr

/-- The byte string "fixed-service", which the handler compares the
requested type against. -/
def fixedServiceStr : Bytes :=
  [102, 105, 120, 101, 100, 45, 115, 101, 114, 118, 105, 99, 101]

/-- The byte string "syslens-default-encryption-key-2023", the built-in
fallback master key the handlers use when no key is configured. -/
def defaultMasterKey : Bytes :=
  [115, 121, 115, 108, 101, 110, 115, 45, 100, 101, 102, 97, 117, 108,
   116, 45, 101, 110, 99, 114, 121, 112, 116, 105, 111, 110, 45, 107,
   101, 121, 45, 50, 48, 50, 51]

/-- The node minted by the create branch of `HandleRegisterNodeGin`
(part_005): the token is bcrypt-hashed into `auth_token_hash`;
independently it is AEAD-encrypted under the configured master key (or
the built-in default when the configured key is empty) by
`EncryptionService.Encrypt` — whose output is already Base64 — and framed
by `base64.StdEncoding.EncodeToString` a second time into
`encrypted_auth_token`.  Status starts pending; both timestamps are
`now`.  The random draws (bcrypt salt, AEAD nonce) are explicit
arguments. -/
def mintNode (bc : Bcrypt) (g : GCM) (cfgKey salt nonce : Bytes)
    (now : Nat) (req : NodeRegisterRequest) (nodeID authToken : Bytes) :
    Node :=
  let systemKey := if cfgKey = [] then defaultMasterKey else cfgKey
  { id := nodeID
    name := req.name
    authTokenHash := bc.hash salt authToken
    encryptedAuthToken :=
      base64Encode (EncryptionService.Encrypt g authToken systemKey nonce)
    labels := req.labels
    configuration := none
    type := if req.type = fixedServiceStr then .fixedService else .agent
    status := .pending
    groupID := if req.groupID ≠ [] then some req.groupID else none
    serviceID := if req.serviceID ≠ [] then some req.serviceID else none
    description := if req.description ≠ [] then some req.description else none
    registeredAt := some now
    lastActiveAt := some now }

/-- The update branch of `HandleRegisterNodeGin` for an already-stored
node: name is always overwritten; labels only when supplied; group,
service and description only when non-empty; an inactive node is raised
back to pending; last-active is bumped.  The token hash and the escrowed
encrypted token are not touched. -/
def updateExistingNode (req : NodeRegisterRequest) (now : Nat)
    (node : Node) : Node :=
  { node with
    name := req.name
    labels := if req.labels.isSome then req.labels else node.labels
    groupID := if req.groupID ≠ [] then some req.groupID else node.groupID
    serviceID :=
      if req.serviceID ≠ [] then some req.serviceID else node.serviceID
    description :=
      if req.description ≠ [] then some req.description else node.description
    status := if node.status = .inactive then .pending else node.status
    lastActiveAt := some now }

/-- The HTTP outcome of `HandleRegisterNodeGin`: 200 with the cleartext
token on creation, 200 without it on update, 500 on a repository
error. -/
inductive RegisterResult where
  | created (nodeID authToken : Bytes)
  | updated (nodeID : Bytes)
  | dbError
deriving DecidableEq, Repr

/-- `HandleRegisterNodeGin` (part_005): look the supplied node id up
(when non-empty); when absent, mint a new node — generating the id and
token when not supplied — and `Create` it (append; the generated id is
fresh); when present, update the existing node's fields in place via
`Update`.  The cleartext token is returned only by the create branch. -/
def HandleRegisterNodeGin (bc : Bcrypt) (g : GCM) (cfgKey : Bytes)
    (salt nonce freshID freshToken : Bytes) (now : Nat)
    (db : List Node) (req : NodeRegisterRequest) :
    RegisterResult × List Node :=
  match (if req.nodeID ≠ [] then findNodeRow db req.nodeID else none) with
  | none =>
    let nodeID := if req.nodeID = [] then freshID else req.nodeID
    let authToken := if req.authToken = [] then freshToken else req.authToken
    (.created nodeID authToken,
     db ++ [mintNode bc g cfgKey salt nonce now req nodeID authToken])
  | some node =>
    match Update db (updateExistingNode req now node) with
    | .ok db2 => (.updated node.id, db2)
    | .error _ => (.dbError, db)

/-- The HTTP outcome of `HandleGetNodeTokenGin`: 400 without a node id,
404 for a missing node or missing escrowed token, 500 for a Base64 or
decryption failure, 200 with the cleartext token on success. -/
inductive TokenRecovery where
  | badRequest
  | notFound
  | tokenMissing
  | decodeFailed
  | decryptFailed
  | ok (token : Bytes)
deriving DecidableEq, Repr

/-- `HandleGetNodeTokenGin` (part_005): fetch the node, require a stored
`encrypted_auth_token`, Base64-decode it, and `EncryptionService.Decrypt`
the result under the configured master key (or the built-in default when
the configured key is empty). -/
def HandleGetNodeTokenGin (g : GCM) (cfgKey : Bytes) (db : List Node)
    (nodeID : Bytes) : TokenRecovery :=
  if nodeID = [] then .badRequest
  else
    match findNodeRow db nodeID with
    | none => .notFound
    | some node =>
      if node.encryptedAuthToken = [] then .tokenMissing
      else
        let systemKey := if cfgKey = [] then defaultMasterKey else cfgKey
        match base64Decode node.encryptedAuthToken with
        | none => .decodeFailed
        | some encryptedBytes =>
          match EncryptionService.Decrypt g encryptedBytes systemKey with
          | none => .decryptFailed
          | some t => .ok t

theorem findNodeRow_map_update (db : List Node) (node : Node) (nid : Bytes)
    (hnode : node.id = nid) (hex : (findNodeRow db nid).isSome = true) :
    findNodeRow (db.map fun m => if m.id == nid then node else m) nid =
      some node := by
  induction db with
  | nil => simp [findNodeRow] at hex
  | cons m rest ih =>
    by_cases hm : m.id = nid
    · simp [findNodeRow, hm, hnode]
    · have hex2 : (findNodeRow rest nid).isSome = true := by
        simpa [findNodeRow, hm] using hex
      have ih2 := ih hex2
      simpa [findNodeRow, hm] using ih2

/-- C5: a second register call with the id of an already-stored node
takes the update branch: the stored row afterwards is the old node with
name, labels and the other supplied fields refreshed, while
auth_token_hash and encrypted_auth_token are exactly the old ones — the
token is never rotated by re-registration. -/
theorem claim_C5_reregistration_preserves_token (bc : Bcrypt) (g : GCM)
    (cfgKey salt nonce freshID freshToken : Bytes) (now : Nat)
    (db : List Node) (req : NodeRegisterRequest) (n : Node)
    (hid : req.nodeID ≠ [])
    (h : findNodeRow db req.nodeID = some n) :
    (HandleRegisterNodeGin bc g cfgKey salt nonce freshID freshToken now db
        req).1 = .updated n.id ∧
    findNodeRow
      (HandleRegisterNodeGin bc g cfgKey salt nonce freshID freshToken now db
        req).2 req.nodeID = some (updateExistingNode req now n) ∧
    (updateExistingNode req now n).authTokenHash = n.authTokenHash ∧
    (updateExistingNode req now n).encryptedAuthToken =
      n.encryptedAuthToken ∧
    (updateExistingNode req now n).name = req.name ∧
    (∀ L, req.labels = some L →
      (updateExistingNode req now n).labels = some L) := by
  have hnid : n.id = req.nodeID := by
    have hp := List.find?_some h
    simpa using hp
  have hunid : (updateExistingNode req now n).id = req.nodeID := hnid
  have hupd : Update db (updateExistingNode req now n) =
      .ok (db.map fun m =>
        if m.id == req.nodeID then updateExistingNode req now n else m) := by
    unfold Update
    rw [hunid, h]
  have hrun : HandleRegisterNodeGin bc g cfgKey salt nonce freshID freshToken
      now db req =
      (.updated n.id, db.map fun m =>
        if m.id == req.nodeID then updateExistingNode req now n else m) := by
    unfold HandleRegisterNodeGin
    rw [if_pos hid, h]
    simp only [hupd]
  refine ⟨by rw [hrun], ?_, rfl, rfl, rfl, ?_⟩
  · rw [hrun]
    exact findNodeRow_map_update db (updateExistingNode req now n) req.nodeID
      hunid (by rw [h]; rfl)
  · intro L hL
    simp [updateExistingNode, hL]

/-- A concrete registration request used by witnesses: node id [1], a
supplied token [5], no optional fields. -/
def reqWitness : NodeRegisterRequest where
  nodeID := [1]
  name := [110]
  labels := some [([2], [3])]
  type := []
  groupID := []
  serviceID := []
  description := []
  authToken := [5]

/-- Witness for C5: re-registering the stored witness node. -/
theorem claim_C5_reregistration_preserves_token_witness :
    reqWitness.nodeID ≠ [] ∧
    findNodeRow [nodeWitness] reqWitness.nodeID = some nodeWitness ∧
    (HandleRegisterNodeGin bcryptWitness gcmWitness [107] [9] [0] [8] [7] 1
        [nodeWitness] reqWitness).1 = .updated nodeWitness.id ∧
    findNodeRow
      (HandleRegisterNodeGin bcryptWitness gcmWitness [107] [9] [0] [8] [7] 1
        [nodeWitness] reqWitness).2 reqWitness.nodeID =
      some (updateExistingNode reqWitness 1 nodeWitness) ∧
    (updateExistingNode reqWitness 1 nodeWitness).authTokenHash =
      nodeWitness.authTokenHash ∧
    (updateExistingNode reqWitness 1 nodeWitness).encryptedAuthToken =
      nodeWitness.encryptedAuthToken ∧
    (updateExistingNode reqWitness 1 nodeWitness).name = reqWitness.name ∧
    (∀ L, reqWitness.labels = some L →
      (updateExistingNode reqWitness 1 nodeWitness).labels = some L) :=
  ⟨by decide, by decide,
   claim_C5_reregistration_preserves_token bcryptWitness gcmWitness [107]
     [9] [0] [8] [7] 1 [nodeWitness] reqWitness nodeWitness (by decide)
     (by decide)⟩

/-- C2: for a node minted at registration — `auth_token_hash` the bcrypt
hash of the cleartext token, `encrypted_auth_token` the Base64 encoding
of `EncryptionService.Encrypt` of the token under the master key — the
recovery operation of `HandleGetNodeTokenGin` (Base64-decode, then
`EncryptionService.Decrypt` under the same master key) returns exactly
that token, the one whose bcrypt hash is stored. -/
theorem claim_C2_token_recovery (bc : Bcrypt) (g : GCM)
    (cfgKey salt nonce : Bytes) (now : Nat) (req : NodeRegisterRequest)
    (nodeID authToken : Bytes) (db : List Node)
    (hid : nodeID ≠ [])
    (hfind : findNodeRow db nodeID =
      some (mintNode bc g cfgKey salt nonce now req nodeID authToken))
    (hn : nonce.length = g.nonceSize) (hnb : allBytes nonce)
    (ht : allBytes authToken) :
    HandleGetNodeTokenGin g cfgKey db nodeID = .ok authToken ∧
    (mintNode bc g cfgKey salt nonce now req nodeID
        authToken).authTokenHash = bc.hash salt authToken ∧
    bc.verify authToken
      (mintNode bc g cfgKey salt nonce now req nodeID
        authToken).authTokenHash = true := by
  set K : Bytes := if cfgKey = [] then defaultMasterKey else cfgKey with hKdef
  have hK : K.length ≠ 0 := by
    rw [hKdef]
    by_cases hc : cfgKey = []
    · rw [if_pos hc]; decide
    · rw [if_neg hc]
      intro hlen
      exact hc (List.length_eq_zero.mp hlen)
  have hnonce_ne : nonce ≠ [] := by
    intro hcon
    have := g.noncePos
    rw [hcon] at hn
    simp at hn
    omega
  have henc : EncryptionService.Encrypt g authToken K nonce =
      base64Encode (nonce ++ g.aeadSeal (normalizeKey K) nonce authToken) := by
    unfold EncryptionService.Encrypt
    rw [if_neg hK]
  have hinner_ne : nonce ++ g.aeadSeal (normalizeKey K) nonce authToken ≠ [] := by
    intro hcon
    exact hnonce_ne (List.append_eq_nil.mp hcon).1
  have henc_ne : EncryptionService.Encrypt g authToken K nonce ≠ [] := by
    rw [henc]
    exact base64Encode_ne_nil hinner_ne
  have hstored : (mintNode bc g cfgKey salt nonce now req nodeID
      authToken).encryptedAuthToken =
      base64Encode (EncryptionService.Encrypt g authToken K nonce) := rfl
  have hstored_ne : (mintNode bc g cfgKey salt nonce now req nodeID
      authToken).encryptedAuthToken ≠ [] := by
    rw [hstored]
    exact base64Encode_ne_nil henc_ne
  have hencb : allBytes (EncryptionService.Encrypt g authToken K nonce) := by
    rw [henc]
    exact base64Encode_allBytes _
  have hdec : base64Decode ((mintNode bc g cfgKey salt nonce now req nodeID
      authToken).encryptedAuthToken) =
      some (EncryptionService.Encrypt g authToken K nonce) := by
    rw [hstored]
    exact base64_roundtrip _ hencb
  refine ⟨?_, rfl, bc.verify_hash salt authToken⟩
  unfold HandleGetNodeTokenGin
  rw [if_neg hid, hfind]
  simp only [if_neg hstored_ne, ← hKdef, hdec,
    Encrypt_Decrypt g authToken K nonce hn hnb ht]

/-- Witness for C2: mint a node with token [5] under key [107] and
recover it. -/
theorem claim_C2_token_recovery_witness :
    ([1] : Bytes) ≠ [] ∧
    findNodeRow
      [mintNode bcryptWitness gcmWitness [107] [9] [0] 0 reqWitness [1] [5]]
      [1] =
      some (mintNode bcryptWitness gcmWitness [107] [9] [0] 0 reqWitness
        [1] [5]) ∧
    ([0] : Bytes).length = gcmWitness.nonceSize ∧ allBytes [0] ∧
    allBytes [5] ∧
    HandleGetNodeTokenGin gcmWitness [107]
      [mintNode bcryptWitness gcmWitness [107] [9] [0] 0 reqWitness [1] [5]]
      [1] = .ok [5] :=
  ⟨by decide, rfl, rfl, by decide, by decide,
   (claim_C2_token_recovery bcryptWitness gcmWitness [107] [9] [0] 0
     reqWitness [1] [5]
     [mintNode bcryptWitness gcmWitness [107] [9] [0] 0 reqWitness [1] [5]]
     (by decide) rfl rfl (by decide) (by decide)).1⟩

/-! ### Group deletion (part_002, PostgresNodeGroupRepository) -/

/-- A `node_groups` row (`NodeGroup`): only identity and name matter
here. -/
structure NodeGroup where
  id : Bytes
  name : Bytes
deriving DecidableEq, Repr

/-- The relational state touched by group deletion: the `nodes` and
`node_groups` tables. -/
structure CatalogDB where
  nodes : List Node
  groups : List NodeGroup
deriving DecidableEq, Repr

/-- `PostgresNodeGroupRepository.Delete` (part_002): inside one
transaction, first `UPDATE nodes SET group_id = NULL WHERE group_id = $1`,
then `DELETE FROM node_groups WHERE id = $1`; when no group row was
deleted the function returns an error and the deferred `Rollback` undoes
the node update, leaving the database unchanged — which the `Except`
error branch models by not producing a new state. -/
def NodeGroupRepository.Delete (db : CatalogDB) (id : Bytes) :
    Except DBError CatalogDB :=
  if db.groups.any (fun gr => gr.id == id) then
    .ok
      { nodes := db.nodes.map fun n =>
          if n.groupID = some id then { n with groupID := none } else n
        groups := db.groups.filter fun gr => !(gr.id == id) }
  else .error .notFound

/-- C6: a successful group deletion leaves no node referencing the
group — the nodes table is exactly the old one with `group_id` nulled on
the rows that referenced the group — and removes the group row; both
happen in the one transaction that produced the new state (the error
path changes nothing). -/
theorem claim_C6_group_delete_nulls_references (db : CatalogDB)
    (id : Bytes) (db2 : CatalogDB)
    (h : NodeGroupRepository.Delete db id = .ok db2) :
    (∀ n ∈ db2.nodes, n.groupID ≠ some id) ∧
    (∀ gr ∈ db2.groups, gr.id ≠ id) ∧
    db2.nodes = db.nodes.map (fun n =>
      if n.groupID = some id then { n with groupID := none } else n) := by
  unfold NodeGroupRepository.Delete at h
  by_cases hany : db.groups.any (fun gr => gr.id == id)
  · rw [if_pos hany] at h
    injection h with h2
    subst h2
    refine ⟨?_, ?_, rfl⟩
    · intro n hn
      rcases List.mem_map.mp hn with ⟨m, hm, rfl⟩
      by_cases hg : m.groupID = some id
      · simp [hg]
      · simp [hg]
    · intro gr hgr
      have hmem := (List.mem_filter.mp hgr).2
      simpa using hmem
  · rw [if_neg hany] at h
    exact Except.noConfusion h

/-- A concrete catalog with one node referencing group [3]. -/
def catalogWitness : CatalogDB where
  nodes := [nodeWitness]
  groups := [{ id := [3], name := [103] }]

/-- The catalog after deleting group [3]. -/
def catalogDeletedWitness : CatalogDB where
  nodes := [{ nodeWitness with groupID := none }]
  groups := []

/-- Witness for C6: deleting group [3] from the concrete catalog. -/
theorem claim_C6_group_delete_nulls_references_witness :
    NodeGroupRepository.Delete catalogWitness [3] =
      .ok catalogDeletedWitness ∧
    (∀ n ∈ catalogDeletedWitness.nodes, n.groupID ≠ some [3]) ∧
    (∀ gr ∈ catalogDeletedWitness.groups, gr.id ≠ [3]) ∧
    catalogDeletedWitness.nodes = catalogWitness.nodes.map (fun n =>
      if n.groupID = some [3] then { n with groupID := none } else n) :=
  ⟨rfl,
   claim_C6_group_delete_nulls_references catalogWitness [3]
     catalogDeletedWitness rfl⟩

/-! ### Aggregator auth middleware (internal/aggregator/server.go) -/

/-- A session-table entry (`NodeConnection`): id, last-activity and
connection times, a status string and the verification flag set by a
successful upstream validation. -/
structure NodeConnection where
  nodeID : Bytes
  lastActive : Nat
  status : Bytes
  connectedAt : Nat
  verified : Bool
deriving DecidableEq, Repr

/-- The outcome of the middleware: abort with an HTTP status, or hand the
request to the handler (`c.Next()`). -/
inductive AuthOutcome where
  | abort (status : Nat)
  | next
deriving DecidableEq, Repr

/-- The warnings the middleware can log on the way through. -/
inductive AuthWarning where
  | unregisteredNode
  | unverifiedNode
deriving DecidableEq, Repr

/-- `Server.authMiddleware` (aggregator server.go): an empty node_id in
the path aborts with 400; an unknown session or a session with
`verified=false` is only logged — the 401 rejections are commented out in
the source — and the request continues to the handler. -/
def authMiddleware (sessions : List (Bytes × NodeConnection))
    (nodeID : Bytes) : AuthOutcome × List AuthWarning :=
  if nodeID = [] then (.abort 400, [])
  else
    match sessions.find? (fun p => p.1 == nodeID) with
    | none => (.next, [.unregisteredNode])
    | some p =>
      if !p.2.verified then (.next, [.unverifiedNode]) else (.next, [])

/-- C7: every metrics or heartbeat request carrying a non-empty node_id
passes the auth middleware to the handler — also when no session exists
for the node or the session has `verified=false`; those cases only log a
warning, and the middleware never aborts with 401. -/
theorem claim_C7_lenient_auth_middleware
    (sessions : List (Bytes × NodeConnection)) (nodeID : Bytes)
    (h : nodeID ≠ []) :
    (authMiddleware sessions nodeID).1 = .next := by
  unfold authMiddleware
  rw [if_neg h]
  cases hf : sessions.find? (fun p => p.1 == nodeID) with
  | none => rfl
  | some p =>
    by_cases hv : p.2.verified <;> simp [hv]

/-- A concrete unverified session entry. -/
def connWitness : NodeConnection where
  nodeID := [1]
  lastActive := 0
  status := []
  connectedAt := 0
  verified := false

/-- Witness for C7: a node with an unverified session passes, as does a
node with no session at all. -/
theorem claim_C7_lenient_auth_middleware_witness :
    ([1] : Bytes) ≠ [] ∧ ([2] : Bytes) ≠ [] ∧
    (authMiddleware [([1], connWitness)] [1]).1 = .next ∧
    (authMiddleware [] [2]).1 = .next :=
  ⟨by decide, by decide,
   claim_C7_lenient_auth_middleware [([1], connWitness)] [1] (by decide),
   claim_C7_lenient_auth_middleware [] [2] (by decide)⟩

/-! ### Sampler network rates (internal/agent/collector/system.go)

The source computes, for each interface, `uint64(float64(cur-prev) /
timeDiff)` where `cur-prev` is uint64 subtraction (wrapping modulo 2^64
when the counter went backwards) and `timeDiff` is the elapsed wall-clock
time in seconds as float64.  Time and the division are idealized as exact
rationals truncated to a natural; the wraparound subtraction, the
branching on the previous snapshot and the interface filtering are
modelled exactly. -/

/-- One row of gopsutil's per-interface counters
(`psnet.IOCountersStat`): cumulative bytes sent and received (uint64). -/
structure IOCountersStat where
  name : Bytes
  bytesSent : Nat
  bytesRecv : Nat
deriving DecidableEq, Repr

/-- The per-interface statistics published in
`SystemStats.Network.Interfaces` (`InterfaceStats`). -/
structure InterfaceStats where
  bytesSent : Nat
  bytesRecv : Nat
  uploadSpeed : Nat
  downloadSpeed : Nat
deriving DecidableEq, Repr

/-- The sampler state used by rate derivation (`SystemCollector`): the
configured interface filter, the previous counters and the previous
sample time in seconds. -/
structure SystemCollector where
  interfaces : List Bytes
  lastNetworkStats : Option (List IOCountersStat)
  lastCollectTime : ℚ

/-- Go's uint64 subtraction `cur - prev`: wraps modulo 2^64 (faithful for
counter values below 2^64, which uint64 guarantees). -/
def u64sub (cur prev : Nat) : Nat := (cur + 2 ^ 64 - prev) % 2 ^ 64

/-- `uint64(float64(x) / timeDiff)`: rational stand-in for the float64
division, truncated to a natural. -/
def rateDiv (x : Nat) (timeDiff : ℚ) : Nat := ⌊(x : ℚ) / timeDiff⌋.toNat

/-- The entry built per interface when a previous snapshot exists and
`timeDiff > 0` (system.go): counters copied through; rates from the
wraparound subtraction when the interface appeared in the previous
snapshot, zero otherwise. -/
def interfaceEntry (prev : List IOCountersStat) (timeDiff : ℚ)
    (io : IOCountersStat) : InterfaceStats :=
  match prev.find? (fun q => q.name == io.name) with
  | some p =>
    { bytesSent := io.bytesSent
      bytesRecv := io.bytesRecv
      uploadSpeed := rateDiv (u64sub io.bytesSent p.bytesSent) timeDiff
      downloadSpeed := rateDiv (u64sub io.bytesRecv p.bytesRecv) timeDiff }
  | none =>
    { bytesSent := io.bytesSent
      bytesRecv := io.bytesRecv
      uploadSpeed := 0
      downloadSpeed := 0 }

/-- The interface filter of the collector: an empty configured list means
every interface (`containsString`). -/
def selectedInterfaces (sc : SystemCollector)
    (counters : List IOCountersStat) : List IOCountersStat :=
  counters.filter fun io =>
    sc.interfaces.isEmpty || sc.interfaces.contains io.name

/-- The network-statistics part of `SystemCollector.Collect` (system.go):
with a previous snapshot and positive elapsed time, one entry per
selected interface with wraparound rates; with a previous snapshot but
non-positive elapsed time, no entries at all (the loop is skipped); on
the first call, entries with zero rates.  The new state stores the full
unfiltered counters and the current time. -/
def collectNetwork (sc : SystemCollector) (now : ℚ)
    (counters : List IOCountersStat) :
    List (Bytes × InterfaceStats) × SystemCollector :=
  let entries :=
    match sc.lastNetworkStats with
    | some prev =>
      let timeDiff := now - sc.lastCollectTime
      if 0 < timeDiff then
        (selectedInterfaces sc counters).map fun io =>
          (io.name, interfaceEntry prev timeDiff io)
      else []
    | none =>
      (selectedInterfaces sc counters).map fun io =>
        (io.name,
         { bytesSent := io.bytesSent, bytesRecv := io.bytesRecv,
           uploadSpeed := 0, downloadSpeed := 0 })
  (entries,
   { sc with lastNetworkStats := some counters, lastCollectTime := now })

theorem rateDiv_one (x : Nat) : rateDiv x 1 = x := by
  simp [rateDiv]

/-- Counterexample to C3: a counter reset (previous 1000 bytes sent,
current 0) one second later yields an upload rate of 2^64 − 1000 =
18446744073709550616 bytes/s — the uint64 subtraction wrapped around; the
rate is a huge number, not the zero the claim asserts. -/
theorem claim_C3_rate_counterexample :
    (collectNetwork
      { interfaces := [],
        lastNetworkStats :=
          some [{ name := [101], bytesSent := 1000, bytesRecv := 1000 }],
        lastCollectTime := 0 }
      1 [{ name := [101], bytesSent := 0, bytesRecv := 0 }]).1 =
      [([101],
        { bytesSent := 0, bytesRecv := 0,
          uploadSpeed := 18446744073709550616,
          downloadSpeed := 18446744073709550616 })] ∧
    (18446744073709550616 : Nat) ≠ 0 := by
  constructor
  · simp only [collectNetwork, selectedInterfaces, interfaceEntry]
    norm_num [List.find?, u64sub, rateDiv_one]
  · decide

/-- C3 amended: on the first call every emitted rate is zero; on a
consecutive call with elapsed time Δt > 0 each selected interface gets an
entry whose rates are ⌊((cur − prev) mod 2^64) / Δt⌋ — equal to
(cur − prev)/Δt while the counter did not go backwards, but wrapping to
2^64 − (prev − cur) over Δt on a counter reset rather than clamping to
zero; an interface absent from the previous snapshot gets rate zero. -/
theorem claim_C3_amended_rates (sc : SystemCollector) (now : ℚ)
    (counters : List IOCountersStat) :
    (sc.lastNetworkStats = none →
      ∀ e ∈ (collectNetwork sc now counters).1,
        e.2.uploadSpeed = 0 ∧ e.2.downloadSpeed = 0) ∧
    (∀ prev, sc.lastNetworkStats = some prev →
      0 < now - sc.lastCollectTime →
      (collectNetwork sc now counters).1 =
        (selectedInterfaces sc counters).map fun io =>
          (io.name, interfaceEntry prev (now - sc.lastCollectTime) io)) ∧
    (∀ prev timeDiff io p,
      prev.find? (fun q => q.name == io.name) = some p →
      (interfaceEntry prev timeDiff io).uploadSpeed =
        rateDiv (u64sub io.bytesSent p.bytesSent) timeDiff ∧
      (interfaceEntry prev timeDiff io).downloadSpeed =
        rateDiv (u64sub io.bytesRecv p.bytesRecv) timeDiff) ∧
    (∀ cur prevc : Nat, prevc ≤ cur → cur < 2 ^ 64 →
      u64sub cur prevc = cur - prevc) ∧
    (∀ cur prevc : Nat, cur < prevc → prevc < 2 ^ 64 →
      u64sub cur prevc = 2 ^ 64 - (prevc - cur)) ∧
    (∀ prev timeDiff io,
      prev.find? (fun q => q.name == io.name) = none →
      (interfaceEntry prev timeDiff io).uploadSpeed = 0 ∧
      (interfaceEntry prev timeDiff io).downloadSpeed = 0) := by
  refine ⟨?_, ?_, ?_, ?_, ?_, ?_⟩
  · intro h e he
    unfold collectNetwork at he
    rw [h] at he
    simp only at he
    rcases List.mem_map.mp he with ⟨io, hio, rfl⟩
    exact ⟨rfl, rfl⟩
  · intro prev hp ht
    unfold collectNetwork
    rw [hp]
    simp only [if_pos ht]
  · intro prev timeDiff io p hfind
    unfold interfaceEntry
    rw [hfind]
    exact ⟨rfl, rfl⟩
  · intro cur prevc h1 h2
    unfold u64sub
    omega
  · intro cur prevc h1 h2
    unfold u64sub
    omega
  · intro prev timeDiff io hfind
    unfold interfaceEntry
    rw [hfind]
    exact ⟨rfl, rfl⟩

/-- Sampler state before the first call. -/
def scFirstWitness : SystemCollector where
  interfaces := []
  lastNetworkStats := none
  lastCollectTime := 0

/-- Current counters for the witness interface. -/
def ioWitness : IOCountersStat where
  name := [101]
  bytesSent := 5
  bytesRecv := 6

/-- Previous-snapshot counters for the witness interface. -/
def prevWitness : IOCountersStat where
  name := [101]
  bytesSent := 3
  bytesRecv := 2

/-- Witness for the amended C3: first call gives zero rates; a found
previous entry gives the wraparound-quotient rates; the wraparound
subtraction on concrete values, forward and reset. -/
theorem claim_C3_amended_rates_witness :
    scFirstWitness.lastNetworkStats = none ∧
    (([101],
      ({ bytesSent := 5, bytesRecv := 6, uploadSpeed := 0,
         downloadSpeed := 0 } : InterfaceStats)) ∈
      (collectNetwork scFirstWitness 1 [ioWitness]).1) ∧
    (({ bytesSent := 5, bytesRecv := 6, uploadSpeed := 0,
        downloadSpeed := 0 } : InterfaceStats).uploadSpeed = 0 ∧
     ({ bytesSent := 5, bytesRecv := 6, uploadSpeed := 0,
        downloadSpeed := 0 } : InterfaceStats).downloadSpeed = 0) ∧
    ([prevWitness].find? (fun q => q.name == ioWitness.name) =
      some prevWitness) ∧
    ((interfaceEntry [prevWitness] 1 ioWitness).uploadSpeed =
       rateDiv (u64sub ioWitness.bytesSent prevWitness.bytesSent) 1 ∧
     (interfaceEntry [prevWitness] 1 ioWitness).downloadSpeed =
       rateDiv (u64sub ioWitness.bytesRecv prevWitness.bytesRecv) 1) ∧
    u64sub 5 3 = 5 - 3 ∧
    u64sub 0 1000 = 2 ^ 64 - (1000 - 0) :=
  ⟨rfl, by decide,
   (claim_C3_amended_rates scFirstWitness 1 [ioWitness]).1 rfl
     ([101],
      { bytesSent := 5, bytesRecv := 6, uploadSpeed := 0,
        downloadSpeed := 0 })
     (by decide),
   rfl,
   (claim_C3_amended_rates scFirstWitness 1 [ioWitness]).2.2.1
     [prevWitness] 1 ioWitness prevWitness rfl,
   (claim_C3_amended_rates scFirstWitness 1 [ioWitness]).2.2.2.1
     5 3 (by decide) (by decide),
   (claim_C3_amended_rates scFirstWitness 1 [ioWitness]).2.2.2.2.1
     0 1000 (by decide) (by decide)⟩

end Syslens
